import Mathlib

/-!
Verification development for the socket-base library: a shallow embedding of
`src/script/SocketBase.js`, `src/script/ClientSocketBase.js` and the
`pingWindowThreshold` client variant (`src/unnamed/part_003`), together with
theorems about the heartbeat protocol, the reconnection backoff and the
event registry.

Times and durations are modelled as rationals, timer handles as booleans
("a timer is pending"), the transport handle as `Option ℕ` carrying the
socket's `readyState` (1 = OPEN).
-/

namespace SocketBaseModel

/-- The reserved custom notification kinds of the library
(`_timeout`, `_reconnect`, `_sentPing`, `_receivedPing`). -/
inductive Notif
  | timeout
  | reconnect
  | sentPing
  | receivedPing
deriving DecidableEq, Repr

/-- Observable actions a heartbeat operation performs besides updating state:
transmitting the reserved one-byte-zero ping frame, invoking a custom
notification, arming the ping timeout (`_addPingTimeout`), scheduling a
reconnection attempt (`setTimeout` in `#trySocketReconnect`), and executing
a scheduled reconnection attempt (`initializeConnection` inside the
scheduled callback). -/
inductive Emission
  | frame
  | notify (n : Notif)
  | armPingTimeout (d : ℚ)
  | scheduleReconnect (d : ℚ)
  | attemptConnect
deriving DecidableEq, Repr

/-- Inbound frame payloads: the frontend receives binary data as a `Blob`,
the backend as an `ArrayBuffer`; both are byte sequences here.  Everything
else (strings in particular) is non-binary. -/
inductive MsgData
  | text (s : String)
  | binary (bytes : List ℕ)
deriving DecidableEq, Repr

/-- Result of `SocketBase._messageIntercept` on one inbound frame: either the
frame is consumed as a heartbeat (diverted to `_handleReceivedPing`), or it
is forwarded to the `_originalMessage` listeners. -/
inductive InterceptResult
  | heartbeat
  | forward (e : MsgData)
deriving DecidableEq, Repr

/-- Embeds `SocketBase._messageIntercept` (src/script/SocketBase.js:25-41): if the
data is binary (Blob or ArrayBuffer), exactly one byte long, and that byte
is zero, handle it as a received ping and do not forward; otherwise invoke
the `_originalMessage` event with the original frame. -/
def messageIntercept (e : MsgData) : InterceptResult :=
  match e with
  | .binary bytes =>
    if bytes.length = 1 then
      if bytes.headD 1 = 0 then InterceptResult.heartbeat
      else InterceptResult.forward e
    else InterceptResult.forward e
  | .text _ => InterceptResult.forward e

/-- Embeds `SocketBase.sendPing` (src/script/SocketBase.js:87-92): only when a socket
is attached and its `readyState` is 1 (OPEN) is the ping payload sent and the
`_sentPing` notification invoked; otherwise nothing at all happens.  The
operation touches no state, which the type (no state in, no state out)
makes explicit. -/
def sendPing (socket : Option ℕ) : List Emission :=
  if socket = some 1 then [Emission.frame, Emission.notify Notif.sentPing]
  else []

/-- Embeds `SocketBase._missedPing` (src/script/SocketBase.js:46-51), acting on the
`isTimedOut` flag: when not already timed out, invoke `_timeout` and set the
flag; otherwise do nothing. -/
def missedPingBase (b : Bool) : Bool × List Notif :=
  if b = false then (true, [Notif.timeout]) else (b, [])

/-- Embeds `SocketBase._handleReceivedPing` (src/script/SocketBase.js:56-62), acting
on the `isTimedOut` flag: invoke `_receivedPing`; when currently timed out,
clear the flag and invoke `_reconnect`. -/
def handleReceivedPingBase (b : Bool) : Bool × List Notif :=
  if b then (false, [Notif.receivedPing, Notif.reconnect])
  else (b, [Notif.receivedPing])

/-- The two happenings that drive the base heartbeat state machine:
the ping timeout firing (`_missedPing`) and a heartbeat frame arriving
(`_handleReceivedPing`). -/
inductive BaseEvent
  | pingTimeoutFired
  | pingReceived
deriving DecidableEq, Repr

/-- One step of the base heartbeat machine. -/
def baseStep (b : Bool) : BaseEvent → Bool × List Notif
  | .pingTimeoutFired => missedPingBase b
  | .pingReceived => handleReceivedPingBase b

/-- The notification trace produced by running the base heartbeat machine
over a sequence of events. -/
def baseTrace (b : Bool) : List BaseEvent → List Notif
  | [] => []
  | e :: rest => (baseStep b e).2 ++ baseTrace (baseStep b e).1 rest

/-- Splits a notification trace at every `_reconnect` and records, for each
segment, how many `_timeout` notifications it contains; `cur` is the count
accumulated for the current segment. -/
def timeoutBursts : List Notif → ℕ → List ℕ
  | [], cur => [cur]
  | n :: rest, cur =>
    if n = Notif.reconnect then cur :: timeoutBursts rest 0
    else timeoutBursts rest (cur + (if n = Notif.timeout then 1 else 0))

/-- The source distinguishes reserved internal event kinds from pass-through
kinds by `type.startsWith('_')`; this is that test, stated on the string's
character list (the first character is an underscore). -/
def isInternalKind (t : String) : Bool := t.data.headD ' ' = '_'

example : messageIntercept (MsgData.binary [0]) = InterceptResult.heartbeat := by decide
example : messageIntercept (MsgData.binary [0, 0]) =
    InterceptResult.forward (MsgData.binary [0, 0]) := by decide
example : messageIntercept (MsgData.text "x") =
    InterceptResult.forward (MsgData.text "x") := by decide
example : sendPing (some 0) = [] := by decide
example : isInternalKind "_timeout" = true := by decide
example : isInternalKind "message" = false := by decide
example : timeoutBursts (baseTrace false [BaseEvent.pingTimeoutFired]) 0 = [1] := by decide
example : ((5 : ℚ) * 4 + 10) / 5 = 6 := by norm_num
example : (0 : ℚ) ≤ 250 := by decide
example : (-1 : ℚ) < 0 := by decide
example : (250 : ℚ) ≤ 10000 := by decide
example : min (10000 : ℚ) 16000 = 10000 := by norm_num
example : ((6 : ℚ) / 5) = 6 / 5 := rfl

/-- The mutable state of a `ClientSocketBase` (responsive role), embedding the
fields of src/script/ClientSocketBase.js and src/unnamed/part_003:
`isTimedOut` and the ping-timeout handle come from the `SocketBase` base
class, the reconnection fields from the backoff controller, the warmup
counter / timestamp / smoothed interval from the adaptive timing policy.
Timer handles are modelled as "a timer is pending" booleans.  The
`pingWindowThreshold` field follows src/unnamed/part_003 (the compiled
variant src/script/ClientSocketBase.js fixes it to 1.2). -/
structure ClientState where
  isTimedOut : Bool
  pingTimeoutPending : Bool
  reconnectPending : Bool
  reconnectTimeoutDuration : ℚ
  minReconnectTimeoutDuration : ℚ
  maxReconnectTimeoutDuration : ℚ
  pingSetup : ℕ
  lastPingTimestamp : ℚ
  meanPingInterval : ℚ
  pingWindowThreshold : ℚ
  socket : Option ℕ
deriving DecidableEq, Repr

/-- The state right after the `ClientSocketBase` constructor: not timed out,
no pending timers, `#reconnectTimeoutDuration = minReconnectTimeoutDuration`,
warmup counter and timing fields zero, no socket yet (`super(null)`). -/
def initClient (minD maxD thr : ℚ) : ClientState :=
  ⟨false, false, false, minD, minD, maxD, 0, 0, 0, thr, none⟩

/-- Embeds `ClientSocketBase.#setTimings` (src/unnamed/part_003:167-177): during
warmup (`pingSetup ≤ 1`) only the counter advances, with the second observed
signal (`pingSetup = 1`) seeding `meanPingInterval` with the elapsed time and
no timeout being armed; afterwards the smoothed interval becomes
`(meanPingInterval * 4 + timeElapsed * 1) / 5` and `_addPingTimeout` arms a
timeout of `meanPingInterval * pingWindowThreshold` (the new value). -/
def setTimings (s : ClientState) (timeElapsed : ℚ) : ClientState × List Emission :=
  if s.pingSetup ≤ 1 then
    ({ s with
        meanPingInterval := if s.pingSetup = 1 then timeElapsed else s.meanPingInterval,
        pingSetup := s.pingSetup + 1 }, [])
  else
    ({ s with
        meanPingInterval := (s.meanPingInterval * 4 + timeElapsed * 1) / 5,
        pingTimeoutPending := true },
     [Emission.armPingTimeout
        (((s.meanPingInterval * 4 + timeElapsed * 1) / 5) * s.pingWindowThreshold)])

/-- The timing phase of `ClientSocketBase._handleReceivedPing`
(src/unnamed/part_003:148-157): when timed out, `#resetTimings` sets the
warmup counter back to 0; otherwise `#setTimings` runs on the time elapsed
since the last ping. -/
def timingUpdate (s : ClientState) (now : ℚ) : ClientState × List Emission :=
  if s.isTimedOut then ({ s with pingSetup := 0 }, [])
  else setTimings s (now - s.lastPingTimestamp)

/-- Embeds `ClientSocketBase._handleReceivedPing` (src/unnamed/part_003:148-161,
identical in src/script/ClientSocketBase.js:101-113): update the timing
state, record the current timestamp, echo with `sendPing()`, then delegate
to `super._handleReceivedPing()`. -/
def clientHandleReceivedPing (s : ClientState) (now : ℚ) : ClientState × List Emission :=
  let s1 := (timingUpdate s now).1
  let s2 := { s1 with lastPingTimestamp := now }
  let s3 : ClientState := { s2 with isTimedOut := (handleReceivedPingBase s2.isTimedOut).1 }
  (s3, (timingUpdate s now).2 ++ sendPing s2.socket
        ++ (handleReceivedPingBase s2.isTimedOut).2.map Emission.notify)

/-- Embeds `ClientSocketBase.#trySocketReconnect` (src/script/ClientSocketBase.js:
91-99, src/unnamed/part_003:137-145): only when `maxReconnectTimeoutDuration`
is non-negative is a reconnection attempt scheduled after the current
`#reconnectTimeoutDuration`. -/
def trySocketReconnect (s : ClientState) : ClientState × List Emission :=
  if 0 ≤ s.maxReconnectTimeoutDuration then
    ({ s with reconnectPending := true },
     [Emission.scheduleReconnect s.reconnectTimeoutDuration])
  else (s, [])

/-- Embeds `ClientSocketBase._socketClosed` (src/script/ClientSocketBase.js:75-78):
`#trySocketReconnect()` followed by `_clearPingTimeout()`. -/
def socketClosed (s : ClientState) : ClientState × List Emission :=
  ({ (trySocketReconnect s).1 with pingTimeoutPending := false },
   (trySocketReconnect s).2)

/-- Embeds `ClientSocketBase.stopReconnectionAttempt` (src/script/
ClientSocketBase.js:84-90): reset the delay to the minimum and cancel a
pending scheduled attempt. -/
def stopReconnectionAttempt (s : ClientState) : ClientState :=
  { s with
      reconnectTimeoutDuration := s.minReconnectTimeoutDuration,
      reconnectPending := false }

/-- Embeds `ClientSocketBase._socketConnected` (src/script/ClientSocketBase.js:
79-82): `stopReconnectionAttempt()` and then `isTimedOut = false`.  No
notification is invoked here. -/
def socketConnected (s : ClientState) : ClientState × List Emission :=
  ({ stopReconnectionAttempt s with isTimedOut := false }, [])

/-- The body of the callback scheduled by `#trySocketReconnect`
(src/script/ClientSocketBase.js:93-97): `initializeConnection()` creates a
fresh socket (readyState 0, CONNECTING) and then the delay is doubled,
capped at the maximum.  The step only acts when such a callback is actually
pending; firing consumes the pending timer. -/
def reconnectFired (s : ClientState) : ClientState × List Emission :=
  if s.reconnectPending then
    ({ s with
        reconnectPending := false,
        socket := some 0,
        reconnectTimeoutDuration :=
          min s.maxReconnectTimeoutDuration (s.reconnectTimeoutDuration * 2) },
     [Emission.attemptConnect])
  else (s, [])

/-- The ping timeout firing (`_missedPing` bound through `_addPingTimeout`'s
`setTimeout`): it can only run while a ping timeout is pending, and firing
consumes the timer. -/
def pingTimeoutFiredClient (s : ClientState) : ClientState × List Emission :=
  if s.pingTimeoutPending then
    ({ s with
        pingTimeoutPending := false,
        isTimedOut := (missedPingBase s.isTimedOut).1 },
     (missedPingBase s.isTimedOut).2.map Emission.notify)
  else (s, [])

/-- The happenings that drive a `ClientSocketBase`: a heartbeat frame
arriving at time `now`, the ping timeout firing, the transport's `close` and
`open` lifecycle events, and a scheduled reconnection attempt firing. -/
inductive ClientEvent
  | pingReceived (now : ℚ)
  | pingTimeoutFired
  | socketClosedEvt
  | socketOpenedEvt
  | reconnectTimerFired
deriving DecidableEq, Repr

/-- One step of the client machine: dispatch an event to the operation the
source binds it to. -/
def clientStep (s : ClientState) : ClientEvent → ClientState × List Emission
  | .pingReceived now => clientHandleReceivedPing s now
  | .pingTimeoutFired => pingTimeoutFiredClient s
  | .socketClosedEvt => socketClosed s
  | .socketOpenedEvt => socketConnected s
  | .reconnectTimerFired => reconnectFired s

/-- Run the client machine over a sequence of events, accumulating the
emission trace. -/
def clientRun (s : ClientState) : List ClientEvent → ClientState × List Emission
  | [] => (s, [])
  | e :: rest =>
    ((clientRun (clientStep s e).1 rest).1,
     (clientStep s e).2 ++ (clientRun (clientStep s e).1 rest).2)

/-- One failed reconnection episode: the transport closes (scheduling an
attempt after the current delay) and the scheduled attempt then fires and
fails to stay open (doubling the delay, capped). -/
def failCycle (s : ClientState) : ClientState :=
  (reconnectFired (socketClosed s).1).1

/-- The client state after `n` consecutive failed reconnection attempts
starting from a freshly constructed client. -/
def failAfter (minD maxD thr : ℚ) : ℕ → ClientState
  | 0 => initClient minD maxD thr
  | n + 1 => failCycle (failAfter minD maxD thr n)

example :
    (clientHandleReceivedPing { initClient 250 10000 (5/4) with socket := some 1 } 7).2
      = [Emission.frame, Emission.notify Notif.sentPing,
         Emission.notify Notif.receivedPing] := by
  norm_num [clientHandleReceivedPing, timingUpdate, setTimings, initClient, sendPing,
    handleReceivedPingBase]

example : (failAfter 250 10000 (5/4) 1).reconnectTimeoutDuration = 500 := by
  norm_num [failAfter, failCycle, initClient, socketClosed, trySocketReconnect,
    reconnectFired]

/-- Listener identities: application callbacks (distinguished by reference,
here by an id) and the bound `this._messageIntercept` filter that
`addEventListener` installs for the `message` kind. -/
inductive Cb
  | user (id : ℕ)
  | intercept
deriving DecidableEq, Repr

/-- The `#eventList` registry: a JS object mapping event kind to a `Set` of
callbacks.  Property insertion order is kept (new keys are appended), and
each callback list is duplicate-free by construction (`Set` semantics). -/
abbrev Registry := List (String × List Cb)

/-- Property read `eventList[type]`. -/
def lookupCbs : Registry → String → Option (List Cb)
  | [], _ => none
  | (t, cbs) :: rest, k => if t = k then some cbs else lookupCbs rest k

/-- Property write `eventList[type] = v`: update in place if the key exists,
else append it. -/
def setCbs : Registry → String → List Cb → Registry
  | [], k, v => [(k, v)]
  | (t, cbs) :: rest, k, v =>
    if t = k then (t, v) :: rest else (t, cbs) :: setCbs rest k v

/-- The callbacks currently registered for a kind (empty when the kind has
no entry). -/
def cbsOf (r : Registry) (t : String) : List Cb := (lookupCbs r t).getD []

/-- Embeds `SocketBase._addEvent` (src/script/SocketBase.js:115-126), registry part:
create the `Set` if the kind is new, then `Set.add` the callback (a no-op
when it is already present). -/
def addEvent (r : Registry) (t : String) (cb : Cb) : Registry :=
  match lookupCbs r t with
  | none => setCbs r t [cb]
  | some cbs => if cb ∈ cbs then r else setCbs r t (cbs ++ [cb])

/-- Embeds `SocketBase._removeEvent` (src/script/SocketBase.js:127-134), registry
part: `eventList[type]?.delete(callback)` — nothing happens when the kind
has no entry, and `Set.delete` of an absent element changes nothing. -/
def removeEvent (r : Registry) (t : String) (cb : Cb) : Registry :=
  match lookupCbs r t with
  | none => r
  | some cbs => setCbs r t (cbs.erase cb)

/-- Embeds `SocketBase.addEventListener` (src/script/SocketBase.js:99-106): for the
`message` kind the original callback is stored under `_originalMessage` and
the bound `_messageIntercept` is what gets registered under `message`;
otherwise the callback is registered under its kind directly. -/
def addEventListener (r : Registry) (t : String) (cb : Cb) : Registry :=
  if t = "message" then
    addEvent (addEvent r "_originalMessage" cb) "message" Cb.intercept
  else addEvent r t cb

/-- Embeds `SocketBase.removeEventListener` (src/script/SocketBase.js:107-114): the
mirror of `addEventListener`, removing from `_originalMessage` by the
original identity and removing `_messageIntercept` from `message`. -/
def removeEventListener (r : Registry) (t : String) (cb : Cb) : Registry :=
  if t = "message" then
    removeEvent (removeEvent r "_originalMessage" cb) "message" Cb.intercept
  else removeEvent r t cb

/-- Embeds `SocketBase._addEventsAgain` (src/script/SocketBase.js:135-143): the
`(type, callback)` registrations replayed onto the (new) socket — every
entry of the registry whose kind does not start with an underscore, each of
its callbacks as stored. -/
def addEventsAgain (r : Registry) : List (String × Cb) :=
  r.flatMap (fun p => if isInternalKind p.1 then [] else p.2.map (fun cb => (p.1, cb)))

/-- Where an inbound frame ends up after the interception middleware: on the
heartbeat path, or delivered to the given application listeners. -/
inductive Delivery
  | pingPath
  | toListeners (cbs : List Cb) (e : MsgData)
deriving DecidableEq, Repr

/-- Composition of `_messageIntercept` with the listener registry: a
heartbeat frame goes to the ping path, anything else is handed unmodified to
the registered `_originalMessage` listeners (the application's `message`
callbacks). -/
def deliverMessage (r : Registry) (e : MsgData) : Delivery :=
  match messageIntercept e with
  | .heartbeat => Delivery.pingPath
  | .forward e₀ => Delivery.toListeners (cbsOf r "_originalMessage") e₀

example :
    addEventListener [] "message" (Cb.user 0)
      = [("_originalMessage", [Cb.user 0]), ("message", [Cb.intercept])] := by decide
example :
    removeEventListener (addEventListener [] "message" (Cb.user 0)) "message" (Cb.user 1)
      = [("_originalMessage", [Cb.user 0]), ("message", [])] := by decide
example :
    addEventsAgain (addEventListener (addEventListener [] "open" (Cb.user 3))
        "message" (Cb.user 0))
      = [("open", Cb.user 3), ("message", Cb.intercept)] := by decide

/-- Restates `_messageIntercept` in closed form: only the one-byte-zero binary frame
is recognised as a heartbeat. -/
theorem messageIntercept_eq (e : MsgData) :
    messageIntercept e
      = if e = MsgData.binary [0] then InterceptResult.heartbeat
        else InterceptResult.forward e := by
  match e with
  | .text s => rfl
  | .binary [] => rfl
  | .binary (b :: []) =>
    by_cases hb : b = 0
    · subst hb; rfl
    · simp [messageIntercept, hb]
  | .binary (b :: c :: tl) =>
    simp [messageIntercept]

/-- C1: an inbound binary frame of exactly one zero byte is diverted to the
heartbeat path and reaches no application message listener; every other
frame is forwarded unmodified to the registered `message` listeners
(stored under `_originalMessage`). -/
theorem message_filter_diverts_only_heartbeat (r : Registry) (e : MsgData) :
    (e = MsgData.binary [0] → deliverMessage r e = Delivery.pingPath)
    ∧ (e ≠ MsgData.binary [0] →
        deliverMessage r e = Delivery.toListeners (cbsOf r "_originalMessage") e) := by
  constructor
  · intro h
    subst h
    rfl
  · intro h
    unfold deliverMessage
    rw [messageIntercept_eq]
    simp [h]

theorem message_filter_diverts_only_heartbeat_witness :
    deliverMessage [] (MsgData.binary [0]) = Delivery.pingPath
    ∧ deliverMessage [] (MsgData.text "hi")
        = Delivery.toListeners (cbsOf [] "_originalMessage") (MsgData.text "hi") :=
  ⟨(message_filter_diverts_only_heartbeat [] (MsgData.binary [0])).1 rfl,
   (message_filter_diverts_only_heartbeat [] (MsgData.text "hi")).2 (by decide)⟩

/-- C10: `sendPing` with no socket attached or with a socket that is not in
the OPEN state (`readyState ≠ 1`) transmits nothing, invokes no `_sentPing`
notification and raises no error; and the `_sentPing` notification is only
ever emitted together with an actually transmitted frame. -/
theorem sendPing_noop_when_socket_not_open (socket : Option ℕ) :
    ((∀ rs, socket = some rs → rs ≠ 1) → sendPing socket = [])
    ∧ (Emission.notify Notif.sentPing ∈ sendPing socket →
        Emission.frame ∈ sendPing socket) := by
  constructor
  · intro h
    by_cases hs : socket = some 1
    · exact absurd rfl (h 1 hs)
    · simp [sendPing, hs]
  · intro h
    by_cases hs : socket = some 1
    · simp [sendPing, hs]
    · simp [sendPing, hs] at h

theorem sendPing_noop_when_socket_not_open_witness :
    sendPing none = [] ∧ sendPing (some 0) = [] :=
  ⟨(sendPing_noop_when_socket_not_open none).1 (by intro rs h; cases h),
   (sendPing_noop_when_socket_not_open (some 0)).1 (by
      intro rs h
      cases h
      decide)⟩

/-- Both `#setTimings` and `#resetTimings` leave `isTimedOut` and the socket
untouched. -/
theorem timingUpdate_preserves (s : ClientState) (now : ℚ) :
    (timingUpdate s now).1.isTimedOut = s.isTimedOut
    ∧ (timingUpdate s now).1.socket = s.socket := by
  unfold timingUpdate setTimings
  split
  · exact ⟨rfl, rfl⟩
  · split <;> exact ⟨rfl, rfl⟩

/-- C3: handling a received heartbeat while not timed out.  During warmup
(fewer than two signals observed, `pingSetup ≤ 1`) only the warmup counter
advances — the second observed signal (`pingSetup = 1`) seeds
`meanPingInterval` directly with the elapsed time — and no ping timeout is
armed; from the third signal onward the smoothed interval becomes
`(previous * 4 + elapsed) / 5` and a ping timeout of exactly
`meanPingInterval * pingWindowThreshold` (the new value) is armed. -/
theorem adaptive_timing_warmup_and_ewma (s : ClientState) (now : ℚ)
    (hto : s.isTimedOut = false) :
    (s.pingSetup ≤ 1 →
      (clientHandleReceivedPing s now).1.pingSetup = s.pingSetup + 1
      ∧ (clientHandleReceivedPing s now).1.meanPingInterval
          = (if s.pingSetup = 1 then now - s.lastPingTimestamp else s.meanPingInterval)
      ∧ (∀ d, Emission.armPingTimeout d ∉ (clientHandleReceivedPing s now).2)
      ∧ (clientHandleReceivedPing s now).1.pingTimeoutPending = s.pingTimeoutPending)
    ∧ (2 ≤ s.pingSetup →
      (clientHandleReceivedPing s now).1.meanPingInterval
          = (s.meanPingInterval * 4 + (now - s.lastPingTimestamp) * 1) / 5
      ∧ Emission.armPingTimeout
            (((s.meanPingInterval * 4 + (now - s.lastPingTimestamp) * 1) / 5)
              * s.pingWindowThreshold)
          ∈ (clientHandleReceivedPing s now).2
      ∧ (clientHandleReceivedPing s now).1.pingTimeoutPending = true) := by
  constructor
  · intro h
    refine ⟨?_, ?_, ?_, ?_⟩
    · simp [clientHandleReceivedPing, timingUpdate, setTimings, hto, h]
    · simp [clientHandleReceivedPing, timingUpdate, setTimings, hto, h]
    · intro d
      by_cases hsock : s.socket = some 1 <;>
        simp [clientHandleReceivedPing, timingUpdate, setTimings, hto, h, sendPing,
          handleReceivedPingBase, hsock]
    · simp [clientHandleReceivedPing, timingUpdate, setTimings, hto, h]
  · intro h
    have h' : ¬ s.pingSetup ≤ 1 := by omega
    refine ⟨?_, ?_, ?_⟩
    · simp [clientHandleReceivedPing, timingUpdate, setTimings, hto, h']
    · simp [clientHandleReceivedPing, timingUpdate, setTimings, hto, h']
    · simp [clientHandleReceivedPing, timingUpdate, setTimings, hto, h']

theorem adaptive_timing_warmup_and_ewma_witness :
    ({ initClient 0 0 2 with pingSetup := 2, meanPingInterval := 10 }
        : ClientState).isTimedOut = false
    ∧ 2 ≤ ({ initClient 0 0 2 with pingSetup := 2, meanPingInterval := 10 }
        : ClientState).pingSetup
    ∧ ((clientHandleReceivedPing
          { initClient 0 0 2 with pingSetup := 2, meanPingInterval := 10 } 5).1.meanPingInterval
        = (({ initClient 0 0 2 with pingSetup := 2, meanPingInterval := 10 }
            : ClientState).meanPingInterval * 4
           + (5 - ({ initClient 0 0 2 with pingSetup := 2, meanPingInterval := 10 }
              : ClientState).lastPingTimestamp) * 1) / 5
      ∧ Emission.armPingTimeout
            (((({ initClient 0 0 2 with pingSetup := 2, meanPingInterval := 10 }
                : ClientState).meanPingInterval * 4
               + (5 - ({ initClient 0 0 2 with pingSetup := 2, meanPingInterval := 10 }
                  : ClientState).lastPingTimestamp) * 1) / 5)
              * ({ initClient 0 0 2 with pingSetup := 2, meanPingInterval := 10 }
                : ClientState).pingWindowThreshold)
          ∈ (clientHandleReceivedPing
              { initClient 0 0 2 with pingSetup := 2, meanPingInterval := 10 } 5).2
      ∧ (clientHandleReceivedPing
          { initClient 0 0 2 with pingSetup := 2, meanPingInterval := 10 } 5).1.pingTimeoutPending
          = true) :=
  ⟨rfl, by decide,
   (adaptive_timing_warmup_and_ewma
      { initClient 0 0 2 with pingSetup := 2, meanPingInterval := 10 } 5 rfl).2 (by decide)⟩

/-- C7: handling an inbound heartbeat on an open socket emits exactly one
outbound reply frame, placed after the timing-update phase and before the
notifications of the shared recovery path (`super._handleReceivedPing`). -/
theorem ping_echoed_exactly_once (s : ClientState) (now : ℚ)
    (hs : s.socket = some 1) :
    (clientHandleReceivedPing s now).2
      = (timingUpdate s now).2
        ++ Emission.frame :: Emission.notify Notif.sentPing ::
            (handleReceivedPingBase (timingUpdate s now).1.isTimedOut).2.map Emission.notify
    ∧ Emission.frame ∉ (timingUpdate s now).2
    ∧ Emission.frame
        ∉ (handleReceivedPingBase (timingUpdate s now).1.isTimedOut).2.map Emission.notify
    ∧ (clientHandleReceivedPing s now).2.count Emission.frame = 1 := by
  have hsock : (timingUpdate s now).1.socket = s.socket := (timingUpdate_preserves s now).2
  have htu : Emission.frame ∉ (timingUpdate s now).2 := by
    unfold timingUpdate setTimings
    split
    · simp
    · split <;> simp
  have hbase : Emission.frame
      ∉ (handleReceivedPingBase (timingUpdate s now).1.isTimedOut).2.map Emission.notify := by
    simp
  have heq : (clientHandleReceivedPing s now).2
      = (timingUpdate s now).2
        ++ Emission.frame :: Emission.notify Notif.sentPing ::
            (handleReceivedPingBase (timingUpdate s now).1.isTimedOut).2.map Emission.notify := by
    unfold clientHandleReceivedPing
    simp [sendPing, hsock, hs]
  refine ⟨heq, htu, hbase, ?_⟩
  rw [heq]
  rw [List.count_append]
  rw [List.count_eq_zero.mpr htu]
  simp [List.count_cons, List.count_eq_zero.mpr hbase]

theorem ping_echoed_exactly_once_witness :
    ({ initClient 0 0 2 with socket := some 1 } : ClientState).socket = some 1
    ∧ (clientHandleReceivedPing { initClient 0 0 2 with socket := some 1 } 5).2.count
        Emission.frame = 1 :=
  ⟨rfl,
   (ping_echoed_exactly_once { initClient 0 0 2 with socket := some 1 } 5 rfl).2.2.2⟩

/-- Invariant behind the timeout-burst bound: while `isTimedOut` is `b`, the
current segment of the trace has accumulated exactly `cond b 1 0` timeout
notifications, and then every segment count stays at most 1. -/
theorem timeoutBursts_le_one_aux (evs : List BaseEvent) (b : Bool) (cur : ℕ)
    (hc : cur = cond b 1 0) :
    ∀ c ∈ timeoutBursts (baseTrace b evs) cur, c ≤ 1 := by
  induction evs generalizing b cur with
  | nil =>
    intro c hcmem
    simp [baseTrace, timeoutBursts] at hcmem
    subst hcmem
    subst hc
    cases b <;> simp
  | cons e rest ih =>
    intro c hcmem
    cases e with
    | pingTimeoutFired =>
      cases b with
      | false =>
        subst hc
        simp [baseTrace, baseStep, missedPingBase, timeoutBursts] at hcmem
        exact ih true 1 rfl c hcmem
      | true =>
        subst hc
        simp [baseTrace, baseStep, missedPingBase] at hcmem
        exact ih true 1 rfl c hcmem
    | pingReceived =>
      cases b with
      | false =>
        subst hc
        simp [baseTrace, baseStep, handleReceivedPingBase, timeoutBursts] at hcmem
        exact ih false 0 rfl c hcmem
      | true =>
        subst hc
        simp [baseTrace, baseStep, handleReceivedPingBase, timeoutBursts] at hcmem
        rcases hcmem with h1 | h2
        · omega
        · exact ih false 0 rfl c h2

/-- C2: over every sequence of timeout firings and received heartbeat
frames, each segment of the notification trace delimited by `_reconnect`
notifications contains at most one `_timeout` notification — the `_timeout`
is emitted at most once per timed-out episode. -/
theorem signal_timeout_at_most_once_per_episode (evs : List BaseEvent) (c : ℕ)
    (hc : c ∈ timeoutBursts (baseTrace false evs) 0) : c ≤ 1 :=
  timeoutBursts_le_one_aux evs false 0 rfl c hc

theorem signal_timeout_at_most_once_per_episode_witness :
    1 ∈ timeoutBursts (baseTrace false
        [BaseEvent.pingTimeoutFired, BaseEvent.pingTimeoutFired,
         BaseEvent.pingReceived, BaseEvent.pingTimeoutFired]) 0
    ∧ 1 ≤ 1 :=
  ⟨by decide,
   signal_timeout_at_most_once_per_episode
     [BaseEvent.pingTimeoutFired, BaseEvent.pingTimeoutFired,
      BaseEvent.pingReceived, BaseEvent.pingTimeoutFired] 1 (by decide)⟩

theorem lookupCbs_setCbs_self (r : Registry) (k : String) (v : List Cb) :
    lookupCbs (setCbs r k v) k = some v := by
  induction r with
  | nil => simp [setCbs, lookupCbs]
  | cons p rest ih =>
    obtain ⟨t, cbs⟩ := p
    by_cases h : t = k <;> simp [setCbs, lookupCbs, h, ih]

theorem lookupCbs_setCbs_ne (r : Registry) (k k' : String) (v : List Cb)
    (h : k ≠ k') : lookupCbs (setCbs r k v) k' = lookupCbs r k' := by
  induction r with
  | nil => simp [setCbs, lookupCbs, h]
  | cons p rest ih =>
    obtain ⟨t, cbs⟩ := p
    by_cases ht : t = k
    · subst ht
      simp [setCbs, lookupCbs, h]
    · simp [setCbs, lookupCbs, ht, ih]

theorem setCbs_eq_self (r : Registry) (k : String) (v : List Cb)
    (h : lookupCbs r k = some v) : setCbs r k v = r := by
  induction r with
  | nil => simp [lookupCbs] at h
  | cons p rest ih =>
    obtain ⟨t, cbs⟩ := p
    by_cases ht : t = k
    · subst ht
      simp [lookupCbs] at h
      simp [setCbs, h]
    · simp [lookupCbs, ht] at h
      simp [setCbs, ht, ih h]

/-- After `_addEvent`, the callback is in the registry entry of its kind. -/
theorem mem_cbsOf_addEvent (r : Registry) (t : String) (cb : Cb) :
    cb ∈ cbsOf (addEvent r t cb) t := by
  unfold addEvent
  cases h : lookupCbs r t with
  | none => simp [cbsOf, lookupCbs_setCbs_self]
  | some cbs =>
    by_cases hm : cb ∈ cbs
    · simp [hm, cbsOf, h]
    · simp [hm, cbsOf, lookupCbs_setCbs_self]

/-- Calling `_addEvent` with a callback that is already registered for the kind is a
no-op (`Set.add` semantics). -/
theorem addEvent_of_mem (r : Registry) (t : String) (cb : Cb)
    (h : cb ∈ cbsOf r t) : addEvent r t cb = r := by
  unfold addEvent
  cases hl : lookupCbs r t with
  | none => simp [cbsOf, hl] at h
  | some cbs =>
    simp [cbsOf, hl] at h
    simp [h]

/-- Calling `_addEvent` on one kind leaves every other kind's entry unchanged. -/
theorem lookupCbs_addEvent_ne (r : Registry) (t t' : String) (cb : Cb)
    (h : t ≠ t') : lookupCbs (addEvent r t cb) t' = lookupCbs r t' := by
  unfold addEvent
  cases hl : lookupCbs r t with
  | none => simp [lookupCbs_setCbs_ne _ _ _ _ h]
  | some cbs =>
    by_cases hm : cb ∈ cbs
    · simp [hm]
    · simp [hm, lookupCbs_setCbs_ne _ _ _ _ h]

/-- Calling `_removeEvent` with a callback that is not registered for the kind leaves
the registry unchanged. -/
theorem removeEvent_of_not_mem (r : Registry) (t : String) (cb : Cb)
    (h : cb ∉ cbsOf r t) : removeEvent r t cb = r := by
  unfold removeEvent
  cases hl : lookupCbs r t with
  | none => rfl
  | some cbs =>
    simp [cbsOf, hl] at h
    show setCbs r t (cbs.erase cb) = r
    rw [List.erase_of_not_mem h]
    exact setCbs_eq_self r t cbs hl

/-- Every non-internal registry entry is replayed by `_addEventsAgain`. -/
theorem mem_addEventsAgain_of_mem (r : Registry) (t : String) (cb : Cb)
    (hint : isInternalKind t = false) (hmem : cb ∈ cbsOf r t) :
    (t, cb) ∈ addEventsAgain r := by
  induction r with
  | nil => simp [cbsOf, lookupCbs] at hmem
  | cons p rest ih =>
    obtain ⟨t₀, cbs₀⟩ := p
    by_cases ht : t₀ = t
    · subst ht
      simp [cbsOf, lookupCbs] at hmem
      simp [addEventsAgain, hint]
      exact Or.inl hmem
    · simp [cbsOf, lookupCbs, ht] at hmem
      have := ih hmem
      simp [addEventsAgain] at this ⊢
      exact Or.inr this

/-- The replay `_addEventsAgain` never replays a reserved internal kind. -/
theorem addEventsAgain_not_internal (r : Registry) (t : String) (cb : Cb)
    (hmem : (t, cb) ∈ addEventsAgain r) : isInternalKind t = false := by
  induction r with
  | nil => simp [addEventsAgain] at hmem
  | cons p rest ih =>
    obtain ⟨t₀, cbs₀⟩ := p
    simp only [addEventsAgain, List.flatMap_cons, List.mem_append] at hmem
    rcases hmem with h1 | h2
    · by_cases hi : isInternalKind t₀ = true
      · simp [hi] at h1
      · simp only [hi, Bool.false_eq_true, if_false] at h1
        rw [List.mem_map] at h1
        obtain ⟨a, ha, heq⟩ := h1
        have ht : t₀ = t := congrArg Prod.fst heq
        subst ht
        exact eq_false_of_ne_true hi
    · exact ih (by simpa [addEventsAgain] using h2)

/-- C8: after the transport handle is replaced, `_addEventsAgain` replays
onto the new handle exactly the pass-through registrations: every callback
stored in the registry under a kind that does not start with `_` is
registered again (for the `message` kind that stored callback is the
filtering `_messageIntercept` wrapper, so the wrapping is preserved), and no
reserved internal-kind listener is ever registered on the transport. -/
theorem rebind_replays_passthrough_listeners (r : Registry) (t : String)
    (cb : Cb) (k : ℕ) :
    (isInternalKind t = false → cb ∈ cbsOf r t → (t, cb) ∈ addEventsAgain r)
    ∧ ((t, cb) ∈ addEventsAgain r → isInternalKind t = false)
    ∧ ("message", Cb.intercept)
        ∈ addEventsAgain (addEventListener r "message" (Cb.user k)) :=
  ⟨fun hint hmem => mem_addEventsAgain_of_mem r t cb hint hmem,
   fun hmem => addEventsAgain_not_internal r t cb hmem,
   mem_addEventsAgain_of_mem _ "message" Cb.intercept (by decide)
     (by
        unfold addEventListener
        simp
        exact mem_cbsOf_addEvent _ "message" Cb.intercept)⟩

theorem rebind_replays_passthrough_listeners_witness :
    isInternalKind "open" = false
    ∧ Cb.user 3 ∈ cbsOf [("open", [Cb.user 3])] "open"
    ∧ ("open", Cb.user 3) ∈ addEventsAgain [("open", [Cb.user 3])]
    ∧ ("message", Cb.intercept)
        ∈ addEventsAgain (addEventListener [("open", [Cb.user 3])] "message" (Cb.user 0)) :=
  ⟨by decide, by decide,
   (rebind_replays_passthrough_listeners [("open", [Cb.user 3])] "open"
      (Cb.user 3) 0).1 (by decide) (by decide),
   (rebind_replays_passthrough_listeners [("open", [Cb.user 3])] "open"
      (Cb.user 3) 0).2.2⟩

theorem cbsOf_addEvent_ne (r : Registry) (t t' : String) (cb : Cb)
    (h : t ≠ t') : cbsOf (addEvent r t cb) t' = cbsOf r t' := by
  unfold cbsOf
  rw [lookupCbs_addEvent_ne r t t' cb h]

/-- C9 (amended): registering the same callback twice for the same kind is
idempotent at the registry level, and removing a callback that was never
registered for its kind is a no-op for every kind except `message`; for the
`message` kind, removal with an unregistered callback still removes the
shared `_messageIntercept` wrapper from the `message` entry. -/
theorem registry_add_idempotent_remove_noop_except_message (r : Registry)
    (t : String) (cb : Cb) :
    addEventListener (addEventListener r t cb) t cb = addEventListener r t cb
    ∧ (t ≠ "message" → cb ∉ cbsOf r t → removeEventListener r t cb = r)
    ∧ (t = "message" → cb ∉ cbsOf r "_originalMessage" →
        removeEventListener r t cb = removeEvent r "message" Cb.intercept) := by
  refine ⟨?_, ?_, ?_⟩
  · by_cases ht : t = "message"
    · subst ht
      show addEventListener
          (addEvent (addEvent r "_originalMessage" cb) "message" Cb.intercept)
          "message" cb
        = addEvent (addEvent r "_originalMessage" cb) "message" Cb.intercept
      unfold addEventListener
      rw [if_pos rfl]
      rw [addEvent_of_mem _ "_originalMessage" cb (by
        rw [cbsOf_addEvent_ne _ "message" "_originalMessage" Cb.intercept (by decide)]
        exact mem_cbsOf_addEvent r "_originalMessage" cb)]
      exact addEvent_of_mem _ "message" Cb.intercept
        (mem_cbsOf_addEvent _ "message" Cb.intercept)
    · simp only [addEventListener, ht, if_false]
      exact addEvent_of_mem _ t cb (mem_cbsOf_addEvent r t cb)
  · intro ht hmem
    simp only [removeEventListener, ht, if_false]
    exact removeEvent_of_not_mem r t cb hmem
  · intro ht hmem
    subst ht
    unfold removeEventListener
    rw [if_pos rfl]
    rw [removeEvent_of_not_mem r "_originalMessage" cb hmem]

/-- Counterexample to C9 as stated: with one `message` listener registered,
removing a callback that was never registered for the `message` kind is not
a no-op — it strips the shared `_messageIntercept` wrapper out of the
`message` entry. -/
theorem remove_unregistered_message_callback_changes_registry_cex :
    Cb.user 1 ∉ cbsOf (addEventListener [] "message" (Cb.user 0)) "message"
    ∧ Cb.user 1 ∉ cbsOf (addEventListener [] "message" (Cb.user 0)) "_originalMessage"
    ∧ removeEventListener (addEventListener [] "message" (Cb.user 0)) "message"
        (Cb.user 1)
      ≠ addEventListener [] "message" (Cb.user 0) :=
  ⟨by decide, by decide, by decide⟩

theorem registry_add_idempotent_remove_noop_except_message_witness :
    addEventListener (addEventListener [] "open" (Cb.user 0)) "open" (Cb.user 0)
        = addEventListener [] "open" (Cb.user 0)
    ∧ removeEventListener [] "open" (Cb.user 0) = ([] : Registry) :=
  ⟨(registry_add_idempotent_remove_noop_except_message [] "open" (Cb.user 0)).1,
   (registry_add_idempotent_remove_noop_except_message [] "open" (Cb.user 0)).2.1
     (by decide) (by decide)⟩

theorem min_double_cap (a x : ℚ) (ha : 0 ≤ a) (hx : 0 ≤ x) :
    min a (min a x * 2) = min a (x * 2) := by
  rcases le_total x a with h | h
  · rw [min_eq_right h]
  · rw [min_eq_left h, min_eq_left (by linarith), min_eq_left (by linarith)]

/-- One close-then-failed-attempt episode, when reconnection is enabled:
the delay is doubled and capped, the backoff bounds are untouched, and no
attempt is left pending afterwards. -/
theorem failCycle_fields (s : ClientState)
    (hmax : 0 ≤ s.maxReconnectTimeoutDuration) :
    (failCycle s).reconnectTimeoutDuration
        = min s.maxReconnectTimeoutDuration (s.reconnectTimeoutDuration * 2)
    ∧ (failCycle s).minReconnectTimeoutDuration = s.minReconnectTimeoutDuration
    ∧ (failCycle s).maxReconnectTimeoutDuration = s.maxReconnectTimeoutDuration
    ∧ (failCycle s).reconnectPending = false := by
  unfold failCycle socketClosed trySocketReconnect reconnectFired
  rw [if_pos hmax]
  simp

theorem failAfter_fields (minD maxD thr : ℚ) (hmin : 0 ≤ minD)
    (hle : minD ≤ maxD) :
    ∀ n, (failAfter minD maxD thr n).reconnectTimeoutDuration = min maxD (minD * 2 ^ n)
    ∧ (failAfter minD maxD thr n).minReconnectTimeoutDuration = minD
    ∧ (failAfter minD maxD thr n).maxReconnectTimeoutDuration = maxD
    ∧ (failAfter minD maxD thr n).reconnectPending = false := by
  intro n
  have hmax0 : 0 ≤ maxD := le_trans hmin hle
  induction n with
  | zero =>
    refine ⟨?_, rfl, rfl, rfl⟩
    simp [failAfter, initClient, min_eq_right hle]
  | succ n ih =>
    obtain ⟨hdur, hminf, hmaxf, hpend⟩ := ih
    have hx : 0 ≤ minD * 2 ^ n := by positivity
    have hcyc := failCycle_fields (failAfter minD maxD thr n)
      (by rw [hmaxf]; exact hmax0)
    refine ⟨?_, ?_, ?_, ?_⟩
    · show (failCycle (failAfter minD maxD thr n)).reconnectTimeoutDuration = _
      rw [hcyc.1, hmaxf, hdur, min_double_cap maxD _ hmax0 hx, pow_succ, ← mul_assoc]
    · show (failCycle (failAfter minD maxD thr n)).minReconnectTimeoutDuration = _
      rw [hcyc.2.1, hminf]
    · show (failCycle (failAfter minD maxD thr n)).maxReconnectTimeoutDuration = _
      rw [hcyc.2.2.1, hmaxf]
    · exact hcyc.2.2.2

/-- C4: after `n` consecutive failed reconnection attempts the current delay
is `min maxDelay (minDelay * 2 ^ n)`, and a successful open resets the delay
to the minimum and cancels any pending attempt, regardless of `n`. -/
theorem reconnect_delay_doubles_capped (minD maxD thr : ℚ) (n : ℕ)
    (hmin : 0 ≤ minD) (hle : minD ≤ maxD) :
    (failAfter minD maxD thr n).reconnectTimeoutDuration = min maxD (minD * 2 ^ n)
    ∧ (socketConnected (failAfter minD maxD thr n)).1.reconnectTimeoutDuration = minD
    ∧ (socketConnected (failAfter minD maxD thr n)).1.reconnectPending = false := by
  obtain ⟨hdur, hminf, hmaxf, hpend⟩ := failAfter_fields minD maxD thr hmin hle n
  refine ⟨hdur, ?_, rfl⟩
  show (failAfter minD maxD thr n).minReconnectTimeoutDuration = minD
  exact hminf

theorem reconnect_delay_doubles_capped_witness :
    (0 : ℚ) ≤ 250 ∧ (250 : ℚ) ≤ 10000
    ∧ ((failAfter 250 10000 2 6).reconnectTimeoutDuration = min 10000 (250 * 2 ^ 6)
       ∧ (socketConnected (failAfter 250 10000 2 6)).1.reconnectTimeoutDuration = 250
       ∧ (socketConnected (failAfter 250 10000 2 6)).1.reconnectPending = false) :=
  ⟨by decide, by decide,
   reconnect_delay_doubles_capped 250 10000 2 6 (by decide) (by decide)⟩

/-- Reconnection activity in an emission trace: scheduling an attempt or an
attempt actually running. -/
def isReconnectActivity : Emission → Bool
  | .scheduleReconnect _ => true
  | .attemptConnect => true
  | _ => false

theorem no_reconnect_activity_aux (evs : List ClientEvent) :
    ∀ s : ClientState, s.maxReconnectTimeoutDuration < 0 →
      s.reconnectPending = false →
      (clientRun s evs).2.countP isReconnectActivity = 0 := by
  induction evs with
  | nil =>
    intro s _ _
    simp [clientRun]
  | cons e rest ih =>
    intro s hmax hp
    have hnotle : ¬ 0 ≤ s.maxReconnectTimeoutDuration := not_le.mpr hmax
    have key : (clientStep s e).2.countP isReconnectActivity = 0
        ∧ (clientStep s e).1.maxReconnectTimeoutDuration < 0
        ∧ (clientStep s e).1.reconnectPending = false := by
      cases e with
      | pingReceived now =>
        refine ⟨?_, ?_, ?_⟩ <;>
          by_cases h1 : s.isTimedOut <;>
            by_cases h2 : s.pingSetup ≤ 1 <;>
              by_cases h3 : s.socket = some 1 <;>
                simp [clientStep, clientHandleReceivedPing, timingUpdate, setTimings,
                  sendPing, handleReceivedPingBase, isReconnectActivity, h1, h2, h3,
                  hmax, hp, List.countP_append]
      | pingTimeoutFired =>
        refine ⟨?_, ?_, ?_⟩ <;>
          by_cases h1 : s.pingTimeoutPending <;>
            by_cases h2 : s.isTimedOut <;>
              simp [clientStep, pingTimeoutFiredClient, missedPingBase,
                isReconnectActivity, h1, h2, hmax, hp]
      | socketClosedEvt =>
        refine ⟨?_, ?_, ?_⟩ <;>
          simp [clientStep, socketClosed, trySocketReconnect, hnotle, hmax, hp]
      | socketOpenedEvt =>
        refine ⟨?_, ?_, ?_⟩ <;>
          simp [clientStep, socketConnected, stopReconnectionAttempt, hmax, hp]
      | reconnectTimerFired =>
        refine ⟨?_, ?_, ?_⟩ <;>
          simp [clientStep, reconnectFired, hp, hmax]
    have hrun : (clientRun s (e :: rest)).2
        = (clientStep s e).2 ++ (clientRun (clientStep s e).1 rest).2 := rfl
    rw [hrun, List.countP_append, key.1, ih _ key.2.1 key.2.2]

/-- C5: with a negative `maxReconnectTimeoutDuration`, no reconnection
attempt is ever scheduled and none ever runs, whatever sequence of closes,
opens, pings and timer firings occurs. -/
theorem negative_max_delay_schedules_no_attempt (minD maxD thr : ℚ)
    (evs : List ClientEvent) (hmax : maxD < 0) :
    (clientRun (initClient minD maxD thr) evs).2.countP isReconnectActivity = 0 :=
  no_reconnect_activity_aux evs (initClient minD maxD thr) hmax rfl

theorem negative_max_delay_schedules_no_attempt_witness :
    ((-1 : ℚ) < 0)
    ∧ (clientRun (initClient 750 (-1) 2)
        [ClientEvent.socketClosedEvt, ClientEvent.reconnectTimerFired,
         ClientEvent.socketClosedEvt]).2.countP isReconnectActivity = 0 :=
  ⟨by decide,
   negative_max_delay_schedules_no_attempt 750 (-1) 2
     [ClientEvent.socketClosedEvt, ClientEvent.reconnectTimerFired,
      ClientEvent.socketClosedEvt] (by decide)⟩

/-- C6 (amended): on the client, `isTimedOut` transitions from true to false
only through the heartbeat-receive path — where the clearing always comes
with a `_reconnect` notification — or through `_socketConnected` on a
successful open, which clears the flag silently; no other operation clears
it. -/
theorem isTimedOut_cleared_only_by_ping_or_open (s : ClientState)
    (e : ClientEvent) (h1 : s.isTimedOut = true)
    (h2 : (clientStep s e).1.isTimedOut = false) :
    (∃ now, e = ClientEvent.pingReceived now
        ∧ Emission.notify Notif.reconnect ∈ (clientStep s e).2)
    ∨ e = ClientEvent.socketOpenedEvt := by
  cases e with
  | pingReceived now =>
    left
    refine ⟨now, rfl, ?_⟩
    have hto : (timingUpdate s now).1.isTimedOut = true := by
      rw [(timingUpdate_preserves s now).1, h1]
    show Emission.notify Notif.reconnect ∈ (clientHandleReceivedPing s now).2
    unfold clientHandleReceivedPing
    simp [handleReceivedPingBase, hto]
  | pingTimeoutFired =>
    exfalso
    by_cases hpend : s.pingTimeoutPending <;>
      simp [clientStep, pingTimeoutFiredClient, missedPingBase, h1, hpend] at h2
  | socketClosedEvt =>
    exfalso
    by_cases hm : 0 ≤ s.maxReconnectTimeoutDuration <;>
      simp [clientStep, socketClosed, trySocketReconnect, h1, hm] at h2
  | socketOpenedEvt =>
    right
    rfl
  | reconnectTimerFired =>
    exfalso
    by_cases hpend : s.reconnectPending <;>
      simp [clientStep, reconnectFired, h1, hpend] at h2

theorem isTimedOut_cleared_only_by_ping_or_open_witness :
    (∃ now, ClientEvent.socketOpenedEvt = ClientEvent.pingReceived now
        ∧ Emission.notify Notif.reconnect
            ∈ (clientStep { initClient 250 10000 2 with isTimedOut := true }
                ClientEvent.socketOpenedEvt).2)
    ∨ ClientEvent.socketOpenedEvt = ClientEvent.socketOpenedEvt :=
  isTimedOut_cleared_only_by_ping_or_open
    { initClient 250 10000 2 with isTimedOut := true }
    ClientEvent.socketOpenedEvt rfl rfl

/-- Counterexample to C6 as stated: a successful open (`_socketConnected`)
clears `isTimedOut` outside the heartbeat-receive path and emits nothing —
in particular no `_reconnect` (`signal-recovered`). -/
theorem socketConnected_clears_flag_without_recovered_cex :
    ({ initClient 250 10000 2 with isTimedOut := true } : ClientState).isTimedOut = true
    ∧ (clientStep { initClient 250 10000 2 with isTimedOut := true }
        ClientEvent.socketOpenedEvt).1.isTimedOut = false
    ∧ (clientStep { initClient 250 10000 2 with isTimedOut := true }
        ClientEvent.socketOpenedEvt).2 = [] :=
  ⟨rfl, rfl, rfl⟩

end SocketBaseModel
